import Mathlib

/-!
Shallow embedding of the JellyJam display/animation engine
(`app/hardware/ledmatrix.py` with the parallel code in
`app/hardware/display_manager.py`).

Conventions of the embedding:
* Python strings are Lean `String`; the `str` methods the source uses
  (`strip`, `upper`, `lower`, `split`, `startswith`, `in`, `lstrip`) are
  modelled over the character list (`String.data`), restricted to ASCII,
  which covers every color token the engine handles (Unicode case folding
  and the underscore/sign forms of Python `int` literals are outside the
  data the engine meets and are not modelled).
* Python integers are `Int` (floor division `//` is `Int.fdiv`); Python
  lists are `List`; steps that can raise are wrapped in `Option` and the
  enclosing `try/except` picks the fallback, exactly as in the source.
* The two float expressions in the overlay builder
  (`round((v/100.0)*w)` and `int(fr*0.12)`) are modelled by exact rational
  arithmetic (`round` is Python's round-half-to-even); at every channel
  value and bar width the claims exercise, the float and the rational
  computation agree.
* Background threads are modelled by making each thread's buffer
  transitions explicit pure state transformers; hardware writes and the
  `_on_update` callback are effects outside the pixel buffer and carry no
  buffer semantics.
-/

/-- ASCII whitespace, modelling the characters Python `str.strip()` removes
from the color tokens the engine meets. -/
def pyIsSpace (c : Char) : Bool :=
  c == ' ' || c == '\t' || c == '\n' || c == '\r'

/-- Python `str.strip()`. -/
def pyStrip (s : String) : String :=
  String.mk (((s.data.dropWhile pyIsSpace).reverse.dropWhile pyIsSpace).reverse)

/-- ASCII upper-casing of one character (Python `str.upper`, ASCII range). -/
def upChar (c : Char) : Char :=
  if 97 ≤ c.toNat ∧ c.toNat ≤ 122 then Char.ofNat (c.toNat - 32) else c

/-- Python `str.upper()` (ASCII). -/
def pyUpper (s : String) : String :=
  String.mk (s.data.map upChar)

/-- ASCII lower-casing of one character (Python `str.lower`, ASCII range). -/
def lowChar (c : Char) : Char :=
  if 65 ≤ c.toNat ∧ c.toNat ≤ 90 then Char.ofNat (c.toNat + 32) else c

/-- Python `str.lower()` (ASCII). -/
def pyLower (s : String) : String :=
  String.mk (s.data.map lowChar)

/-- Python `s.startswith('#')`. -/
def startsWithHash (s : String) : Bool :=
  match s.data with
  | '#' :: _ => true
  | _ => false

/-- Decimal digit value of a character, if it is one. -/
def digitVal? (c : Char) : Option Nat :=
  if 48 ≤ c.toNat ∧ c.toNat ≤ 57 then some (c.toNat - 48) else none

/-- Value of a non-empty all-decimal-digit character list. -/
def decDigits? (l : List Char) : Option Nat :=
  if l.isEmpty then none
  else l.foldl (fun acc c =>
    match acc, digitVal? c with
    | some n, some d => some (n * 10 + d)
    | _, _ => none) (some 0)

/-- Python `int(s)` on the decimal strings the engine meets: optional
whitespace, optional sign, decimal digits; anything else raises, i.e.
returns `none` here. -/
def pyInt? (s : String) : Option Int :=
  match (pyStrip s).data with
  | '-' :: rest => (decDigits? rest).map (fun n => -(n : Int))
  | '+' :: rest => (decDigits? rest).map (fun n => (n : Int))
  | l => (decDigits? l).map (fun n => (n : Int))

/-- Python `s.split(',')`: split on every comma, keeping empty pieces. -/
def pySplitCommaAux : List Char → List Char → List String
  | [], acc => [String.mk acc.reverse]
  | c :: rest, acc =>
      if c == ',' then String.mk acc.reverse :: pySplitCommaAux rest []
      else pySplitCommaAux rest (c :: acc)

/-- Python `s.split(',')`. -/
def pySplitComma (s : String) : List String :=
  pySplitCommaAux s.data []

/-- Upper-case hexadecimal digit character for a value below 16. -/
def hexDigitChar (n : Nat) : Char :=
  if n < 10 then Char.ofNat (48 + n) else Char.ofNat (55 + n)

/-- Hexadecimal digit characters of `n` (empty for 0); the first argument
is fuel bounding the number of divisions, fixed at `n` itself, which
always suffices. -/
def natHexCharsAux : Nat → Nat → List Char
  | 0, _ => []
  | _ + 1, 0 => []
  | fuel + 1, n + 1 =>
      natHexCharsAux fuel ((n + 1) / 16) ++ [hexDigitChar ((n + 1) % 16)]

/-- Upper-case hexadecimal rendering of a natural number (Python `'%X'`). -/
def natHexStr (n : Nat) : String :=
  if n = 0 then "0" else String.mk (natHexCharsAux n n)

/-- Python `'%02X' % i`: upper-case hex, zero-padded to total width 2. -/
def pyHex02X (i : Int) : String :=
  let s := if i < 0 then "-" ++ natHexStr i.natAbs else natHexStr i.natAbs
  if s.length = 1 then "0" ++ s else s

/-- Python `int(parts[0]), int(parts[1]), int(parts[2])` over
`s.split(',')`: the whole comprehension raises (yielding `none`) when any
part fails to parse, and at least three parts are required (an
`IndexError` is likewise caught by the caller). -/
def parseTriple (s : String) : Option (Int × Int × Int) :=
  let parts := (pySplitComma s).map (fun p => pyInt? (pyStrip p))
  if parts.all Option.isSome then
    match parts with
    | some a :: some b :: some c :: _ => some (a, b, c)
    | _ => none
  else none

/-- `LEDMatrix._coerce_color` (identical to `BasePlugin._coerce_color`):
`None` and every value whose string form fits no recognized shape coerce
to black; a `#`-prefixed string of length 7 is upper-cased as-is, length 4
is nibble-doubled; otherwise a comma-separated integer triple is formatted
with `'#%02X%02X%02X'`.  The Python argument is an arbitrary value passed
through `str`; it is modelled as `none` (for `None`) or the `str` image. -/
def expandShortHex (s : String) : String :=
  match s.data with
  | _ :: c1 :: c2 :: c3 :: _ => pyUpper (String.mk ['#', c1, c1, c2, c2, c3, c3])
  | _ => "#000000"

/-- `LEDMatrix._coerce_color` / `BasePlugin._coerce_color`. -/
def coerceColor (v : Option String) : String :=
  match v with
  | none => "#000000"
  | some raw =>
    let s := pyStrip raw
    if startsWithHash s && (s.length == 7 || s.length == 4) then
      if s.length == 4 then expandShortHex s else pyUpper s
    else if s.data.contains ',' then
      match parseTriple s with
      | some (r, g, b) => "#" ++ pyHex02X r ++ pyHex02X g ++ pyHex02X b
      | none => "#000000"
    else "#000000"

/-- One element of a WLED `seg.i` array as seen by `parse_wled_i_array`:
the source dispatches on `isinstance(item, int)` (which also catches JSON
booleans, coerced to 0/1 before reaching this point) and
`isinstance(item, str)`; every other element is skipped by the final
`i += 1`. -/
inductive IItem where
  | int : Int → IItem
  | str : String → IItem
  | other : IItem
deriving DecidableEq

/-- Color normalization inside a run of `parse_wled_i_array`:
`s.upper()` when already `#`-prefixed, else `('#' + s).upper()`. -/
def normRunColor (c : String) : String :=
  let s := pyStrip c
  if startsWithHash s then pyUpper s else pyUpper ("#" ++ s)

/-- Color normalization for a stray color string in `parse_wled_i_array`:
`val if val.startswith('#') else ('#' + val).upper()` (note: no
upper-casing in the first case, unlike `normRunColor`). -/
def strayColor (c : String) : String :=
  let val := pyStrip c
  if startsWithHash val then val else pyUpper ("#" ++ val)

/-- Placement of a stray color string: `out.index('#000000')` finds the
first still-black slot; a `ValueError` (no such slot) is swallowed. -/
def strayPlace (out : List String) (c : String) : List String :=
  match out.findIdx? (fun x => x == "#000000") with
  | some idx => out.set idx (strayColor c)
  | none => out

/-- The color assigned to the `k`-th pixel of a run of clamped length
`len` by `parse_wled_i_array`: a single color fills the range; with at
least as many colors as pixels they are assigned in order (the
`cols[-1]` fallback of the source is unreachable there); with fewer they
repeat cyclically. -/
def runColor (cols : List String) (len : Nat) (k : Nat) : String :=
  if cols.length = 1 then cols.headD "#000000"
  else if len ≤ cols.length then
    (if k < cols.length then cols.getD k "#000000" else cols.getLastD "#000000")
  else cols.getD (k % cols.length) "#000000"

/-- `for k in range(len): out[a+k] = f k` — the in-place index loop shared
by the run filler and the volume-bar overlay builder. -/
def foldSet (out : List String) (a len : Nat) (f : Nat → String) : List String :=
  (List.range len).foldl (fun acc k => acc.set (a + k) (f k)) out

/-- Reading the run's end index: the next item when it is an integer,
else `start + 1` with nothing consumed. -/
def splitEnd (start : Int) : List IItem → Int × List IItem
  | IItem.int e :: r => (e, r)
  | l => (start + 1, l)

/-- Collecting the maximal prefix of color strings after a run header. -/
def takeStringsSplit : List IItem → List String × List IItem
  | IItem.str s :: rest =>
      let p := takeStringsSplit rest
      (s :: p.1, p.2)
  | l => ([], l)

/-- One run's effect on the output buffer: normalize the colors, clamp
the range to `[0, num)`, drop the run when the clamped range or the color
list is empty, else fill it per `runColor`. -/
def runUpdate (out : List String) (num : Nat) (start e : Int)
    (colors : List String) : List String :=
  let cols := colors.map normRunColor
  let a : Int := max 0 start
  let b : Int := min (num : Int) e
  let len : Nat := (b - a).toNat
  if len = 0 ∨ cols = [] then out
  else foldSet out a.toNat len (runColor cols len)

/-- The `while i < n` loop of `parse_wled_i_array`, written as structural
recursion on the remaining items; the fuel argument bounds the number of
loop iterations (each consumes at least one item) and is fixed at the
item count by the wrapper. -/
def parseLoopF : Nat → List IItem → List String → Nat → List String
  | 0, _, out, _ => out
  | _ + 1, [], out, _ => out
  | fuel + 1, IItem.int start :: rest, out, num =>
      let er := splitEnd start rest
      let sp := takeStringsSplit er.2
      parseLoopF fuel sp.2 (runUpdate out num start er.1 sp.1) num
  | fuel + 1, IItem.str c :: rest, out, num =>
      parseLoopF fuel rest (strayPlace out c) num
  | fuel + 1, IItem.other :: rest, out, num =>
      parseLoopF fuel rest out num

/-- `parse_wled_i_array(i_array, num_pixels)`: decode a WLED `seg.i`
style array into a flat pixel list of length `num_pixels`, starting from
an all-black buffer. -/
def parse_wled_i_array (items : List IItem) (numPixels : Nat) : List String :=
  parseLoopF items.length items (List.replicate numPixels "#000000") numPixels

/-- The `pixels` argument of `set_pixels`: a flat row-major list or a
nested list of rows (the source decides by the first element; an empty
list takes the flat path, with the same empty result).  Elements are
arbitrary values headed for `_coerce_color`, modelled as `none` (Python
`None`) or the `str` image. -/
inductive PixInput where
  | flat : List (Option String) → PixInput
  | nested : List (List (Option String)) → PixInput

/-- Flattening plus per-value color coercion at the top of `set_pixels`. -/
def flattenInput : PixInput → List String
  | PixInput.flat l => l.map coerceColor
  | PixInput.nested rows => (rows.map (fun r => r.map coerceColor)).flatten

/-- The resize-or-clamp step of `set_pixels`: right-pad with black to
`expected` entries, then truncate to `expected`. -/
def padTruncate (l : List String) (expected : Nat) : List String :=
  (l ++ List.replicate (expected - l.length) "#000000").take expected

/-- Whether a stored overlay pixel survives a merging write:
`if v and v != '#000000'` in the source. -/
def overlayWins (o : String) : Bool :=
  o != "" && o != "#000000"

/-- The overlay-mode merge loop of `set_pixels`: every stored overlay
pixel that is truthy and non-black replaces the caller's pixel.  The
source indexes `flat` by the overlay's indices; it is only reached with
both lists of length `width*height`. -/
def mergeOverlay : List String → List String → List String
  | fs, [] => fs
  | [], _ :: _ => []
  | f :: fs, o :: os => (if overlayWins o then o else f) :: mergeOverlay fs os

/-- The in-memory state of one `LEDMatrix` (equivalently of the
`RGBMatrixPlugin` software mirror): the row-major buffer plus the volume
overlay bookkeeping fields (`_vol_overlay_active`, `_vol_overlay_mode`,
`_vol_overlay_pixels`) and the serpentine configuration flag. -/
structure MatrixState where
  width : Nat
  height : Nat
  buf : List String
  overlayActive : Bool
  overlayMode : String
  overlayPixels : Option (List String)
  serpentine : Bool
deriving DecidableEq

/-- `LEDMatrix.set_pixels(pixels, bypass_overlay)` restricted to its
buffer semantics (the hardware write and the `_on_update` callback do not
touch the buffer): a non-bypassing write is dropped whole while a pause
overlay is active; otherwise the input is coerced, flattened, padded or
truncated to `width*height`, merged with an active overlay-mode overlay,
and stored. -/
def set_pixels (st : MatrixState) (pixels : Option PixInput)
    (bypassOverlay : Bool) : MatrixState :=
  if st.overlayActive && !bypassOverlay && (st.overlayMode == "pause") then st
  else
    match pixels with
    | none => st
    | some p =>
      let expected := st.width * st.height
      let flat := padTruncate (flattenInput p) expected
      let flat :=
        if st.overlayActive && !bypassOverlay && (st.overlayMode == "overlay") then
          match st.overlayPixels with
          | some op => if op.length = expected then mergeOverlay flat op else flat
          | none => flat
        else flat
      { st with buf := flat }

/-- Hexadecimal digit value of a character, if it is one. -/
def hexDigitVal? (c : Char) : Option Nat :=
  if 48 ≤ c.toNat ∧ c.toNat ≤ 57 then some (c.toNat - 48)
  else if 65 ≤ c.toNat ∧ c.toNat ≤ 70 then some (c.toNat - 55)
  else if 97 ≤ c.toNat ∧ c.toNat ≤ 102 then some (c.toNat - 87)
  else none

/-- Python `int(chars, 16)` on the plain hex slices the engine builds:
non-empty, all hex digits; anything else raises (`none`). -/
def hexByte? (l : List Char) : Option Nat :=
  if l.isEmpty then none
  else l.foldl (fun acc c =>
    match acc, hexDigitVal? c with
    | some n, some d => some (n * 16 + d)
    | _, _ => none) (some 0)

/-- The fill-color parse of `show_volume_bar`: strip every leading `#`
(`lstrip('#')`), read three two-character hex slices; any failure falls
back to green `(0, 255, 0)`. -/
def parseHexRGB (c : String) : Nat × Nat × Nat :=
  let hexc := c.data.dropWhile (fun ch => ch == '#')
  match hexByte? (hexc.take 2), hexByte? ((hexc.drop 2).take 2),
      hexByte? ((hexc.drop 4).take 2) with
  | some r, some g, some b => (r, g, b)
  | _, _, _ => (0, 255, 0)

/-- Python `round` at an exact rational `num/den`, half to even. -/
def pyRoundHalfEven (num den : Nat) : Nat :=
  let q := num / den
  let r := num % den
  if 2 * r < den then q
  else if den < 2 * r then q + 1
  else if q % 2 = 0 then q else q + 1

/-- `max(0, int(channel * 0.12))` — the dimmed remainder channel of the
volume bar; `max 0` is vacuous over naturals, and the float product is
modelled exactly (they agree at every 8-bit channel value). -/
def dim12 (n : Nat) : Nat :=
  n * 12 / 100

/-- The overlay buffer built by `show_volume_bar`'s runner: a copy of the
snapshot whose bottom row is `filled = round((v/100)*w)` pixels of the
fill color followed by the dimmed remainder color. -/
def buildVolumeOverlay (snap : List String) (w h vol : Nat) (c : String) :
    List String :=
  let filled := pyRoundHalfEven (vol * w) 100
  let rgb := parseHexRGB c
  let filledColor := "#" ++ pyHex02X rgb.1 ++ pyHex02X rgb.2.1 ++ pyHex02X rgb.2.2
  let emptyColor := "#" ++ pyHex02X (dim12 rgb.1) ++ pyHex02X (dim12 rgb.2.1)
      ++ pyHex02X (dim12 rgb.2.2)
  foldSet snap ((h - 1) * w) w (fun x => if x < filled then filledColor else emptyColor)

/-- Color normalization at the top of `show_volume_bar`: default green
for a falsy value, prepend `#` when missing, expand a 4-character
shorthand, upper-case. -/
def normVolColor (color : String) : String :=
  let c := pyStrip (if color == "" then "#00FF00" else color)
  let c := if startsWithHash c then c else "#" ++ c
  let c :=
    if c.length = 4 then
      match c.data with
      | _ :: a :: b :: d :: _ => String.mk ['#', a, a, b, b, d, d]
      | _ => c
    else c
  pyUpper c

/-- Mode normalization of `show_volume_bar`: lower-case, anything other
than `overlay`/`pause` falls back to `overlay` (the spec's names:
`overlay` is Overlay, `pause` is ExclusivePause). -/
def normVolMode (mode : String) : String :=
  let m := pyLower (if mode == "" then "overlay" else mode)
  if m == "overlay" || m == "pause" then m else "overlay"

/-- The state transition up to and including the overlay write of
`show_volume_bar(volume, duration_ms, color, mode)`: clamp the volume,
mark the overlay active with its normalized mode, snapshot the buffer,
build and store the overlay pixels, and write them with
`bypass_overlay=True`. -/
def showVolumeBarStart (st : MatrixState) (volume : Int) (color mode : String) :
    MatrixState :=
  let v := (max 0 (min 100 volume)).toNat
  let c := normVolColor color
  let m := normVolMode mode
  let snap := st.buf
  let over := buildVolumeOverlay snap st.width st.height v c
  let st1 : MatrixState :=
    { st with overlayActive := true, overlayMode := m, overlayPixels := some over }
  set_pixels st1 (some (PixInput.flat (over.map some))) true

/-- The `finally` block of the overlay runner: clear the active flag,
reset the mode, drop the stored overlay pixels. -/
def clearOverlay (st : MatrixState) : MatrixState :=
  { st with overlayActive := false, overlayMode := "overlay", overlayPixels := none }

/-- The tail of the overlay runner once the wait loop ends: when the
cycle was not cancelled and no animation is running, the snapshot is
written back with `bypass_overlay=True`; the `finally` block then clears
the overlay state. -/
def overlayExpiry (st : MatrixState) (cancelled animating : Bool)
    (snap : List String) : MatrixState :=
  let st1 :=
    if cancelled = false ∧ animating = false then
      set_pixels st (some (PixInput.flat (snap.map some))) true
    else st
  clearOverlay st1

/-- The per-pixel emission sequence of the hardware write loop in
`set_pixels`: row by row, odd rows reversed when serpentine is enabled,
each element emitted as `setPixelColor(y*width + phys_x, color)`. -/
def hwEmission (w h : Nat) (serp : Bool) (buf : List String) :
    List (Nat × String) :=
  ((List.range h).map (fun y =>
    let row := (buf.drop (y * w)).take w
    let rowIter := if serp && y % 2 == 1 then row.reverse else row
    rowIter.enum.map (fun p =>
      let physX := if serp && y % 2 == 1 then w - 1 - p.1 else p.1
      (y * w + physX, p.2)))).flatten

/-- The color a physical LED index ends up holding after the emission
sequence (the last write to that index, if any). -/
def physColor (w h : Nat) (serp : Bool) (buf : List String) (i : Nat) :
    Option String :=
  ((hwEmission w h serp buf).reverse.find? (fun p => p.1 == i)).map (fun p => p.2)

/-- A decoded JSON value as `json.loads` hands it to `play_wled_json`
(fractional numbers do not occur in the fields the engine reads and are
not modelled). -/
inductive JVal where
  | null : JVal
  | jbool : Bool → JVal
  | jint : Int → JVal
  | jstr : String → JVal
  | jarr : List JVal → JVal
  | jobj : List (String × JVal) → JVal

/-- Key lookup in a decoded JSON object (keys are unique after
`json.loads`). -/
def jget (fields : List (String × JVal)) (k : String) : Option JVal :=
  (fields.find? (fun p => p.1 == k)).map (fun p => p.2)

/-- The `seg` extraction of `play_wled_json`: a `seg` key wins (even when
its value is null, in which case the object is skipped); otherwise the
first element of a non-empty `presets` list is consulted when it is an
object with a `seg` key. -/
def extractSeg (o : JVal) : Option JVal :=
  match o with
  | JVal.jobj f =>
    match jget f "seg" with
    | some s => some s
    | none =>
      match jget f "presets" with
      | some (JVal.jarr (p :: _)) =>
        match p with
        | JVal.jobj pf => jget pf "seg"
        | _ => none
      | _ => none
  | _ => none

/-- The `i` array of a segment: a dict segment contributes its `i` list;
a list of segments contributes the concatenation of its members' `i`
lists.  A string `i` iterates as its characters, as Python iteration
would; a truthy non-iterable `i` would raise in the source and does not
occur in the format. -/
def iArrOfSeg : JVal → Option (List JVal)
  | JVal.jobj f =>
    match jget f "i" with
    | some (JVal.jarr l) => some l
    | some (JVal.jstr s) => some (s.data.map (fun c => JVal.jstr (String.mk [c])))
    | _ => none
  | JVal.jarr segs =>
    some ((segs.map (fun s =>
      match s with
      | JVal.jobj sf =>
        match jget sf "i" with
        | some (JVal.jarr l) => l
        | _ => []
      | _ => [])).flatten)
  | _ => none

/-- The view `parse_wled_i_array` takes of a JSON element: Python
`isinstance(item, int)` also accepts booleans, `isinstance(item, str)`
accepts strings, everything else is skipped. -/
def toIItem (j : JVal) : IItem :=
  match j with
  | JVal.jint n => IItem.int n
  | JVal.jbool b => IItem.int (if b then 1 else 0)
  | JVal.jstr s => IItem.str s
  | _ => IItem.other

/-- The pixel frame contributed by one decoded object, when it has
segment data with a non-empty `i` array. -/
def extractFrame (numPixels : Nat) (o : JVal) : Option (List String) :=
  match extractSeg o with
  | none => none
  | some seg =>
    match iArrOfSeg seg with
    | none => none
    | some [] => none
    | some l => some (parse_wled_i_array (l.map toIItem) numPixels)

/-- Python `int(value)` on a decoded JSON value: integers and booleans
convert, strings parse as decimal, everything else raises (`none`). -/
def pyIntOfJVal : JVal → Option Int
  | JVal.jint n => some n
  | JVal.jbool b => some (if b then 1 else 0)
  | JVal.jstr s => pyInt? s
  | _ => none

/-- `int(max(0, min(100, b * 100 // 255)))` — the brightness percent the
player derives from a frame's 0-255 `bri` value (floor division, then
clamped). -/
def briPercentOfCode (b : Int) : Int :=
  max 0 (min 100 (Int.fdiv (b * 100) 255))

/-- The brightness derivation the specification describes:
`round(v*100/255)` clamped to 0..100.  For integer `v` the quotient
`v*100/255` is never a half (255 is odd while `v*200` is even), so
round-half-up, written here, agrees with Python's round-half-even. -/
def briPercentRounded (b : Int) : Int :=
  max 0 (min 100 (Int.fdiv (b * 100 * 2 + 255) (255 * 2)))

/-- The brightness percent recorded for one decoded object: present only
when the object has a `bri` key whose value converts with `int(...)`. -/
def briOfObj (o : JVal) : Option Int :=
  match o with
  | JVal.jobj f =>
    match jget f "bri" with
    | some v =>
      match pyIntOfJVal v with
      | some b => some (briPercentOfCode b)
      | none => none
    | none => none
  | _ => none

/-- The raw duration of one decoded object: the first of the keys `dur`,
`duration`, `ms` that is present and converts with `int(...)` (a present
but unconvertible key falls through to the next, as the loop's
`except` does). -/
def durOfObj (o : JVal) : Option Int :=
  match o with
  | JVal.jobj f =>
    ((jget f "dur").bind pyIntOfJVal) <|> ((jget f "duration").bind pyIntOfJVal)
      <|> ((jget f "ms").bind pyIntOfJVal)
  | _ => none

/-- The final per-frame duration at the default playback speed 1.0
(where `int(dur / speed)` is exactly `dur`): the 200 ms default applies
when no key converts, and the result is floored at 10 ms. -/
def durFinal (o : JVal) (defaultFrameMs : Int) : Int :=
  max 10 ((durOfObj o).getD defaultFrameMs)

/-- The errors `play_wled_json` raises before spawning its playback
thread: a missing file (`FileNotFoundError`), no decodable JSON objects,
no extractable frames. -/
inductive PlayError where
  | fileNotFound : PlayError
  | noObjects : PlayError
  | noFrames : PlayError
deriving DecidableEq

/-- The playback plan handed to the spawned animation thread: per-frame
pixels, optional brightness percent, and duration in ms. -/
structure PlayPlan where
  frames : List (List String)
  bris : List (Option Int)
  durs : List Int
deriving DecidableEq

/-- The source text of a play call, abstracted past `json.loads` (plus
its regex fallback for concatenated objects): either the file is missing,
or decoding produced a list of top-level objects — possibly empty, which
the source reports as `No JSON objects parsed from WLED file`.  A decoded
scalar also leaves the object list empty. -/
inductive WledSource where
  | missing : WledSource
  | objs : List JVal → WledSource

/-- The frame-collection phase of `LEDMatrix.play_wled_json` at the
default speed: each object contributes a frame (with its brightness and
duration) exactly when it has segment data with a non-empty `i` array;
zero surviving objects or zero frames abort with an error before any
thread is started. -/
def play_wled_json (numPixels : Nat) (src : WledSource) :
    Except PlayError PlayPlan :=
  match src with
  | WledSource.missing => Except.error PlayError.fileNotFound
  | WledSource.objs l =>
    if l.isEmpty then Except.error PlayError.noObjects
    else
      let steps := l.filterMap (fun o =>
        (extractFrame numPixels o).map (fun pix => (pix, briOfObj o, durFinal o 200)))
      if steps.isEmpty then Except.error PlayError.noFrames
      else Except.ok ⟨steps.map (fun s => s.1), steps.map (fun s => s.2.1),
        steps.map (fun s => s.2.2)⟩

/-- A `LEDMatrix` together with its animation flag (`is_animating()`,
i.e. whether `_anim_stop_event` is set by a live playback thread). -/
structure Engine where
  matrix : MatrixState
  animating : Bool
deriving DecidableEq

/-- The synchronous part of `LEDMatrix.play_wled_json` as a state
transition: a missing file raises before `stop_animation()` is even
called; otherwise any running animation is stopped, the file is parsed,
and only a successful parse spawns the playback thread.  The returned
option is the error reported to the caller. -/
def playStep (es : Engine) (src : WledSource) : Engine × Option PlayError :=
  match src with
  | WledSource.missing => (es, some PlayError.fileNotFound)
  | WledSource.objs l =>
    let es1 : Engine := { es with animating := false }
    match play_wled_json (es.matrix.width * es.matrix.height) (WledSource.objs l) with
    | Except.error e => (es1, some e)
    | Except.ok _ => ({ es1 with animating := true }, none)

/-- A color string in the canonical form the engine itself produces:
no surrounding whitespace, `#`-prefixed, 7 characters, upper-case.  Every
value `_coerce_color` returns for a well-formed input has this shape, and
every such string is a fixed point of `_coerce_color`. -/
def canonicalColor (c : String) : Prop :=
  pyStrip c = c ∧ startsWithHash c = true ∧ c.length = 7 ∧ pyUpper c = c

instance canonicalColorDecidable (c : String) : Decidable (canonicalColor c) := by
  unfold canonicalColor
  infer_instance

/-- Whether a `seg.i` item list begins with an integer (deciding whether
the run header `start` is followed by an explicit end index). -/
def headIsInt : List IItem → Bool
  | IItem.int _ :: _ => true
  | _ => false

/-- An 8-pixel buffer of pairwise distinct colors for exercising the
4-wide, 2-tall hardware mapping. -/
def c1Buf : List String :=
  ["#C00000", "#C10000", "#C20000", "#C30000", "#C40000", "#C50000", "#C60000",
   "#C70000"]

/-- A 2x2 snapshot as an animation would leave it: non-black in the top
row (pixel 0), black elsewhere. -/
def c5Snap : List String :=
  ["#AA0000", "#000000", "#000000", "#000000"]

/-- The caller's (animation's) next 2x2 frame, distinct everywhere from
`c5Snap`. -/
def c5New : List String :=
  ["#111111", "#222222", "#333333", "#444444"]

/-- A 2x2 matrix in overlay mode right after `show_volume_bar` stored the
overlay built from `c5Snap` (full volume, green). -/
def c5St : MatrixState :=
  ⟨2, 2, c5Snap, true, "overlay", some (buildVolumeOverlay c5Snap 2 2 100 "#00FF00"),
   false⟩

theorem getD_set_self : ∀ (l : List String) (i : Nat) (v d : String),
    i < l.length → (l.set i v).getD i d = v := by
  intro l
  induction l with
  | nil => intro i v d h; simp at h
  | cons a as ih =>
    intro i v d h
    cases i with
    | zero => simp
    | succ n => simpa using ih n v d (by simpa using h)

theorem getD_set_ne : ∀ (l : List String) (i j : Nat) (v d : String),
    i ≠ j → (l.set i v).getD j d = l.getD j d := by
  intro l
  induction l with
  | nil => intro i j v d _; simp
  | cons a as ih =>
    intro i j v d hne
    cases i with
    | zero =>
      cases j with
      | zero => exact absurd rfl hne
      | succ m => simp
    | succ n =>
      cases j with
      | zero => simp
      | succ m => simpa using ih n m v d (fun h => hne (by rw [h]))

theorem getD_replicate : ∀ (n i : Nat) (c d : String),
    i < n → (List.replicate n c).getD i d = c := by
  intro n
  induction n with
  | zero => intro i c d h; simp at h
  | succ m ih =>
    intro i c d h
    cases i with
    | zero => simp [List.replicate]
    | succ k => simpa [List.replicate] using ih k c d (by omega)

theorem foldSet_step (out : List String) (a n : Nat) (f : Nat → String) :
    foldSet out a (n + 1) f = (foldSet out a n f).set (a + n) (f n) := by
  unfold foldSet
  rw [List.range_succ, List.foldl_append]
  rfl

theorem foldSet_length (out : List String) (a : Nat) :
    ∀ (len : Nat) (f : Nat → String), (foldSet out a len f).length = out.length := by
  intro len
  induction len with
  | zero => intro f; rfl
  | succ n ih => intro f; rw [foldSet_step, List.length_set, ih]

theorem foldSet_getD_inside (out : List String) (a : Nat) :
    ∀ (len : Nat) (f : Nat → String) (k : Nat) (d : String),
    k < len → a + len ≤ out.length → (foldSet out a len f).getD (a + k) d = f k := by
  intro len
  induction len with
  | zero => intro f k d hk _; omega
  | succ n ih =>
    intro f k d hk hlen
    rw [foldSet_step]
    rcases Nat.lt_succ_iff_lt_or_eq.mp hk with hlt | rfl
    · rw [getD_set_ne _ _ _ _ _ (by omega)]
      exact ih f k d hlt (by omega)
    · exact getD_set_self _ _ _ _ (by rw [foldSet_length]; omega)

theorem foldSet_getD_outside (out : List String) (a : Nat) :
    ∀ (len : Nat) (f : Nat → String) (i : Nat) (d : String),
    (i < a ∨ a + len ≤ i) → (foldSet out a len f).getD i d = out.getD i d := by
  intro len
  induction len with
  | zero => intro f i d _; rfl
  | succ n ih =>
    intro f i d hi
    rw [foldSet_step, getD_set_ne _ _ _ _ _ (by omega)]
    exact ih f i d (by omega)

theorem mergeOverlay_length : ∀ (f o : List String),
    (mergeOverlay f o).length = f.length := by
  intro f
  induction f with
  | nil => intro o; cases o <;> simp [mergeOverlay]
  | cons a as ih =>
    intro o
    cases o with
    | nil => simp [mergeOverlay]
    | cons b bs => simp [mergeOverlay, ih bs]

theorem mergeOverlay_getD : ∀ (f o : List String) (i : Nat) (d : String),
    i < f.length → i < o.length →
    (mergeOverlay f o).getD i d
      = if overlayWins (o.getD i "") then o.getD i "" else f.getD i "" := by
  intro f
  induction f with
  | nil => intro o i d hf _; simp at hf
  | cons a as ih =>
    intro o i d hf ho
    cases o with
    | nil => simp at ho
    | cons b bs =>
      cases i with
      | zero => simp [mergeOverlay]
      | succ n =>
        simpa [mergeOverlay] using ih bs n d (by simpa using hf) (by simpa using ho)

theorem padTruncate_length (l : List String) (e : Nat) :
    (padTruncate l e).length = e := by
  unfold padTruncate
  rw [List.length_take, List.length_append, List.length_replicate]
  omega

theorem padTruncate_eq_self (l : List String) (e : Nat) (h : l.length = e) :
    padTruncate l e = l := by
  subst h
  simp [padTruncate]

theorem padTruncate_getD_lt (l : List String) (e i : Nat) (d : String)
    (hil : i < l.length) (hie : i < e) :
    (padTruncate l e).getD i d = l.getD i d := by
  unfold padTruncate
  rw [List.getD_eq_getElem?_getD, List.getD_eq_getElem?_getD, List.getElem?_take,
    if_pos hie, List.getElem?_append, if_pos hil]

theorem padTruncate_getD_pad (l : List String) (e i : Nat) (d : String)
    (hil : l.length ≤ i) (hie : i < e) :
    (padTruncate l e).getD i d = "#000000" := by
  unfold padTruncate
  rw [List.getD_eq_getElem?_getD, List.getElem?_take, if_pos hie,
    List.getElem?_append, if_neg (by omega), List.getElem?_replicate,
    if_pos (by omega)]
  rfl

theorem coerce_canonical (c : String) (h : canonicalColor c) :
    coerceColor (some c) = c := by
  obtain ⟨h1, h2, h3, h4⟩ := h
  simp [coerceColor, h1, h2, h3, h4]

theorem takeStringsSplit_map_str : ∀ (colors : List String),
    takeStringsSplit (colors.map IItem.str) = (colors, []) := by
  intro colors
  induction colors with
  | nil => rfl
  | cons c cs ih => simp [takeStringsSplit, ih]

theorem takeStringsSplit_snd_len : ∀ (l : List IItem),
    (takeStringsSplit l).2.length ≤ l.length := by
  intro l
  induction l with
  | nil => simp [takeStringsSplit]
  | cons x rest ih =>
    cases x with
    | str s => simpa [takeStringsSplit] using Nat.le_succ_of_le ih
    | int n => simp [takeStringsSplit]
    | other => simp [takeStringsSplit]

theorem splitEnd_snd_len (s : Int) : ∀ (l : List IItem),
    (splitEnd s l).2.length ≤ l.length := by
  intro l
  cases l with
  | nil => simp [splitEnd]
  | cons x rest =>
    cases x with
    | int e => simp [splitEnd]
    | str c => simp [splitEnd]
    | other => simp [splitEnd]

theorem parseLoopF_nil : ∀ (fuel : Nat) (out : List String) (num : Nat),
    parseLoopF fuel [] out num = out := by
  intro fuel out num
  cases fuel <;> rfl

theorem parseLoopF_fuel : ∀ (n : Nat) (items : List IItem), items.length ≤ n →
    ∀ (f1 f2 : Nat) (out : List String) (num : Nat),
    items.length ≤ f1 → items.length ≤ f2 →
    parseLoopF f1 items out num = parseLoopF f2 items out num := by
  intro n
  induction n with
  | zero =>
    intro items hlen f1 f2 out num _ _
    have : items = [] := List.length_eq_zero.mp (Nat.le_zero.mp hlen)
    subst this
    rw [parseLoopF_nil, parseLoopF_nil]
  | succ n ih =>
    intro items hlen f1 f2 out num h1 h2
    match items, hlen, h1, h2 with
    | [], _, _, _ => rw [parseLoopF_nil, parseLoopF_nil]
    | x :: rest, hlen, h1, h2 =>
      obtain ⟨g1, rfl⟩ : ∃ k, f1 = k + 1 := ⟨f1 - 1, by simp at h1; omega⟩
      obtain ⟨g2, rfl⟩ : ∃ k, f2 = k + 1 := ⟨f2 - 1, by simp at h2; omega⟩
      have hrest : rest.length ≤ n := by simp at hlen; omega
      have hg1 : rest.length ≤ g1 := by simp at h1; omega
      have hg2 : rest.length ≤ g2 := by simp at h2; omega
      cases x with
      | int s =>
        simp only [parseLoopF]
        have hsub : (takeStringsSplit (splitEnd s rest).2).2.length ≤ rest.length :=
          le_trans (takeStringsSplit_snd_len _) (splitEnd_snd_len _ _)
        exact ih _ (le_trans hsub hrest) g1 g2 _ num (le_trans hsub hg1)
          (le_trans hsub hg2)
      | str c =>
        simp only [parseLoopF]
        exact ih rest hrest g1 g2 _ num hg1 hg2
      | other =>
        simp only [parseLoopF]
        exact ih rest hrest g1 g2 _ num hg1 hg2

theorem runUpdate_eq (out : List String) (num : Nat) (start e : Int)
    (colors : List String) :
    runUpdate out num start e colors
      = if (min (num : Int) e - max 0 start).toNat = 0 ∨ colors.map normRunColor = []
        then out
        else foldSet out (max 0 start).toNat (min (num : Int) e - max 0 start).toNat
          (runColor (colors.map normRunColor) (min (num : Int) e - max 0 start).toNat) :=
  rfl

theorem runUpdate_length (out : List String) (num : Nat) (start e : Int)
    (colors : List String) : (runUpdate out num start e colors).length = out.length := by
  rw [runUpdate_eq]
  split
  · rfl
  · rw [foldSet_length]

theorem strayPlace_length (out : List String) (c : String) :
    (strayPlace out c).length = out.length := by
  unfold strayPlace
  cases out.findIdx? (fun x => x == "#000000") <;> simp

theorem parseLoopF_length : ∀ (fuel : Nat) (items : List IItem)
    (out : List String) (num : Nat), out.length = num →
    (parseLoopF fuel items out num).length = num := by
  intro fuel
  induction fuel with
  | zero => intro items out num h; exact h
  | succ n ih =>
    intro items out num h
    cases items with
    | nil => rw [parseLoopF_nil]; exact h
    | cons x rest =>
      cases x with
      | int s =>
        simp only [parseLoopF]
        exact ih _ _ num (by rw [runUpdate_length]; exact h)
      | str c =>
        simp only [parseLoopF]
        exact ih _ _ num (by rw [strayPlace_length]; exact h)
      | other =>
        simp only [parseLoopF]
        exact ih _ _ num h

theorem headD_eq_getD_zero (l : List String) (d : String) (h : l ≠ []) :
    l.headD d = l.getD 0 d := by
  cases l with
  | nil => exact absurd rfl h
  | cons a as => rfl

theorem parse_single_run (start e : Int) (colors : List String) (num : Nat) :
    parse_wled_i_array (IItem.int start :: IItem.int e :: colors.map IItem.str) num
      = runUpdate (List.replicate num "#000000") num start e colors := by
  show parseLoopF ((colors.map IItem.str).length + 1)
      (takeStringsSplit (colors.map IItem.str)).2
      (runUpdate (List.replicate num "#000000") num start e
        (takeStringsSplit (colors.map IItem.str)).1) num
    = runUpdate (List.replicate num "#000000") num start e colors
  rw [takeStringsSplit_map_str]
  exact parseLoopF_nil _ _ _


/-- Claim C2: for every run `(start_index, end_index, colors...)` decoded
by `parse_wled_i_array`, after clamping the range to `[0, num_pixels)` (a
run whose clamped range is empty is silently dropped and the buffer stays
all black), a single following color fills every pixel of the clamped
range; with at least as many colors as the run length, pixel `start + k`
gets the `k`-th color, truncating extras; with fewer colors they are
assigned cyclically (`k mod len(colors)`); pixels outside the clamped
range stay black; and decoding `[0, 2, "FF0000", "00FF00", "0000FF"]` on
a 2-pixel range yields `#FF0000, #00FF00` rather than an error. -/
theorem C2_segment_run_semantics (start e : Int) (colors : List String)
    (num : Nat) (hc : colors ≠ []) :
    ((parse_wled_i_array (IItem.int start :: IItem.int e :: colors.map IItem.str)
        num).length = num)
    ∧ (∀ (cols : List String) (a len : Nat),
        cols = colors.map normRunColor →
        a = (max 0 start).toNat →
        len = (min (num : Int) e - max 0 start).toNat →
        (len = 0 →
          parse_wled_i_array (IItem.int start :: IItem.int e :: colors.map IItem.str)
              num
            = List.replicate num "#000000")
        ∧ (∀ k, k < len →
            (parse_wled_i_array
                (IItem.int start :: IItem.int e :: colors.map IItem.str) num).getD
                (a + k) ""
              = runColor cols len k)
        ∧ (∀ p, p < num → (p < a ∨ a + len ≤ p) →
            (parse_wled_i_array
                (IItem.int start :: IItem.int e :: colors.map IItem.str) num).getD p ""
              = "#000000")
        ∧ (cols.length = 1 → ∀ k, k < len →
            (parse_wled_i_array
                (IItem.int start :: IItem.int e :: colors.map IItem.str) num).getD
                (a + k) ""
              = cols.headD "#000000")
        ∧ (len ≤ cols.length → ∀ k, k < len →
            (parse_wled_i_array
                (IItem.int start :: IItem.int e :: colors.map IItem.str) num).getD
                (a + k) ""
              = cols.getD k "#000000")
        ∧ (cols.length < len → ∀ k, k < len →
            (parse_wled_i_array
                (IItem.int start :: IItem.int e :: colors.map IItem.str) num).getD
                (a + k) ""
              = cols.getD (k % cols.length) "#000000"))
    ∧ parse_wled_i_array [IItem.int 0, IItem.int 2, IItem.str "FF0000",
        IItem.str "00FF00", IItem.str "0000FF"] 2 = ["#FF0000", "#00FF00"] := by
  have hcols : colors.map normRunColor ≠ [] := by simpa using hc
  have hM0 : (0 : Int) ≤ max 0 start := le_max_left 0 start
  have hmn : min (num : Int) e ≤ (num : Int) := min_le_left _ _
  refine ⟨?_, ?_, by decide⟩
  · rw [parse_single_run, runUpdate_length]
    simp
  · intro cols a len h1 h2 h3
    subst h1; subst h2; subst h3
    have hB : ∀ k, k < (min (num : Int) e - max 0 start).toNat →
        (parse_wled_i_array (IItem.int start :: IItem.int e :: colors.map IItem.str)
            num).getD ((max 0 start).toNat + k) ""
          = runColor (colors.map normRunColor)
              (min (num : Int) e - max 0 start).toNat k := by
      intro k hk
      have hL : (min (num : Int) e - max 0 start).toNat ≠ 0 := by omega
      rw [parse_single_run, runUpdate_eq, if_neg (not_or.mpr ⟨hL, hcols⟩)]
      exact foldSet_getD_inside _ _ _ _ k ""
        hk (by simp only [List.length_replicate]; omega)
    refine ⟨?_, hB, ?_, ?_, ?_, ?_⟩
    · intro h0
      rw [parse_single_run, runUpdate_eq, if_pos (Or.inl h0)]
    · intro p hp hside
      rw [parse_single_run, runUpdate_eq]
      by_cases hcond : (min (num : Int) e - max 0 start).toNat = 0
        ∨ colors.map normRunColor = []
      · rw [if_pos hcond]
        exact getD_replicate num p _ _ hp
      · rw [if_neg hcond, foldSet_getD_outside _ _ _ _ _ _ hside]
        exact getD_replicate num p _ _ hp
    · intro h1 k hk
      rw [hB k hk]
      simp [runColor, h1]
    · intro hle k hk
      rw [hB k hk]
      by_cases h1 : (colors.map normRunColor).length = 1
      · have hk0 : k = 0 := by omega
        subst hk0
        simp only [runColor, if_pos h1]
        exact headD_eq_getD_zero _ _ hcols
      · simp only [runColor, if_neg h1, if_pos hle,
          if_pos (lt_of_lt_of_le hk hle)]
    · intro hgt k hk
      rw [hB k hk]
      by_cases h1 : (colors.map normRunColor).length = 1
      · have hmod : k % (colors.map normRunColor).length = 0 := by
          rw [h1]
          exact Nat.mod_one k
        simp only [runColor, if_pos h1, hmod]
        exact headD_eq_getD_zero _ _ hcols
      · simp only [runColor, if_neg h1, if_neg (by omega : ¬ ((min (num : Int) e
          - max 0 start).toNat ≤ (colors.map normRunColor).length))]

/-- Witness for C2: the parser applied to the claim's concrete example,
`[0, 2, "FF0000", "00FF00", "0000FF"]` on a 2-pixel range, truncates the
extra color and raises no error. -/
theorem C2_segment_run_semantics_witness :
    parse_wled_i_array [IItem.int 0, IItem.int 2, IItem.str "FF0000",
        IItem.str "00FF00", IItem.str "0000FF"] 2 = ["#FF0000", "#00FF00"] :=
  (C2_segment_run_semantics 0 2 ["FF0000", "00FF00", "0000FF"] 2 (by decide)).2.2

theorem set_pixels_blocked (st : MatrixState) (px : Option PixInput) (bypass : Bool)
    (h : (st.overlayActive && !bypass && (st.overlayMode == "pause")) = true) :
    set_pixels st px bypass = st := by
  unfold set_pixels
  rw [if_pos h]

theorem set_pixels_none (st : MatrixState) (bypass : Bool) :
    set_pixels st none bypass = st := by
  unfold set_pixels
  split
  · rfl
  · rfl

theorem set_pixels_some_eq (st : MatrixState) (p : PixInput) (bypass : Bool)
    (hnb : (st.overlayActive && !bypass && (st.overlayMode == "pause")) = false) :
    set_pixels st (some p) bypass
      = { st with buf :=
          if st.overlayActive && !bypass && (st.overlayMode == "overlay") then
            match st.overlayPixels with
            | some op =>
              if op.length = st.width * st.height then
                mergeOverlay (padTruncate (flattenInput p) (st.width * st.height)) op
              else padTruncate (flattenInput p) (st.width * st.height)
            | none => padTruncate (flattenInput p) (st.width * st.height)
          else padTruncate (flattenInput p) (st.width * st.height) } := by
  unfold set_pixels
  rw [if_neg (by simp [hnb])]

/-- Claim C10: `parse_wled_i_array` is total — it cannot raise and for
every item list and pixel count it returns exactly `num_pixels` entries;
a run-header integer not followed by a second integer behaves as the
single-pixel range `[start, start+1)`; and a stray color string with no
preceding index pair is placed into the first entry still equal to
`#000000`, being silently dropped when no such entry exists. -/
theorem C10_parser_totality :
    (∀ (items : List IItem) (num : Nat),
      (parse_wled_i_array items num).length = num)
    ∧ (∀ (s : Int) (rest : List IItem) (num : Nat), headIsInt rest = false →
        parse_wled_i_array (IItem.int s :: rest) num
          = parse_wled_i_array (IItem.int s :: IItem.int (s + 1) :: rest) num)
    ∧ (∀ (c : String) (rest : List IItem) (out : List String) (num : Nat),
        parseLoopF (rest.length + 1) (IItem.str c :: rest) out num
          = parseLoopF rest.length rest (strayPlace out c) num)
    ∧ (∀ (out : List String) (c : String),
        out.findIdx? (fun x => x == "#000000") = none → strayPlace out c = out)
    ∧ (∀ (out : List String) (c : String) (i : Nat),
        out.findIdx? (fun x => x == "#000000") = some i →
        strayPlace out c = out.set i (strayColor c)) := by
  refine ⟨?_, ?_, ?_, ?_, ?_⟩
  · intro items num
    exact parseLoopF_length _ _ _ _ (by simp)
  · intro s rest num h
    cases rest with
    | nil => rfl
    | cons x r =>
      cases x with
      | int n => simp [headIsInt] at h
      | str c =>
        have hts : (takeStringsSplit (IItem.str c :: r)).2.length ≤ r.length + 1 := by
          simpa using takeStringsSplit_snd_len (IItem.str c :: r)
        exact parseLoopF_fuel (r.length + 1) _ hts (r.length + 1) (r.length + 2)
          (runUpdate (List.replicate num "#000000") num s (s + 1)
            (takeStringsSplit (IItem.str c :: r)).1) num hts
          (le_trans hts (Nat.le_succ _))
      | other =>
        have hts : (takeStringsSplit (IItem.other :: r)).2.length ≤ r.length + 1 := by
          simpa using takeStringsSplit_snd_len (IItem.other :: r)
        exact parseLoopF_fuel (r.length + 1) _ hts (r.length + 1) (r.length + 2)
          (runUpdate (List.replicate num "#000000") num s (s + 1)
            (takeStringsSplit (IItem.other :: r)).1) num hts
          (le_trans hts (Nat.le_succ _))
  · intro c rest out num
    rfl
  · intro out c h
    unfold strayPlace
    rw [h]
  · intro out c i h
    unfold strayPlace
    rw [h]

/-- Witness for C10: concrete instances — the parser returns a 2-entry
buffer for a 2-pixel strip; `[0, "ff0000"]` decodes like
`[0, 1, "ff0000"]`; one loop step on a stray color places it in the
first black slot; a stray color is dropped when no slot is black and
placed at the first black slot otherwise. -/
theorem C10_parser_totality_witness :
    (parse_wled_i_array [IItem.int 3, IItem.str "ff0000"] 2).length = 2
    ∧ parse_wled_i_array [IItem.int 0, IItem.str "ff0000"] 3
        = parse_wled_i_array [IItem.int 0, IItem.int 1, IItem.str "ff0000"] 3
    ∧ parseLoopF 1 [IItem.str "abc"] ["#000000"] 1
        = parseLoopF 0 [] (strayPlace ["#000000"] "abc") 1
    ∧ strayPlace ["#111111"] "abc" = ["#111111"]
    ∧ strayPlace ["#111111", "#000000"] "abc"
        = ["#111111", "#000000"].set 1 (strayColor "abc") :=
  ⟨C10_parser_totality.1 [IItem.int 3, IItem.str "ff0000"] 2,
   C10_parser_totality.2.1 0 [IItem.str "ff0000"] 3 (by decide),
   C10_parser_totality.2.2.1 "abc" [] ["#000000"] 1,
   C10_parser_totality.2.2.2.1 ["#111111"] "abc" (by decide),
   C10_parser_totality.2.2.2.2 ["#111111", "#000000"] "abc" 1 (by decide)⟩

theorem coerceColor_some_eq (raw : String) :
    coerceColor (some raw)
      = if startsWithHash (pyStrip raw)
          && ((pyStrip raw).length == 7 || (pyStrip raw).length == 4) then
          (if (pyStrip raw).length == 4 then expandShortHex (pyStrip raw)
           else pyUpper (pyStrip raw))
        else if (pyStrip raw).data.contains ',' then
          (match parseTriple (pyStrip raw) with
           | some (r, g, b) => "#" ++ pyHex02X r ++ pyHex02X g ++ pyHex02X b
           | none => "#000000")
        else "#000000" := rfl

/-- Counterexample to C3 as stated: `_coerce_color` never validates hex
digits — the 7-character `#`-prefixed string `#GGGGGG`, which contains
non-hex characters, is returned unchanged instead of coercing to
`#000000`. -/
theorem C3_color_coercion_counterexample :
    coerceColor (some "#GGGGGG") = "#GGGGGG"
    ∧ coerceColor (some "#GGGGGG") ≠ "#000000" := by decide

/-- Claim C3 (amended): color coercion is total and deterministic; a
trimmed `#`-prefixed string of length 7 is returned upper-cased and one
of length 4 is expanded by doubling each nibble — in both cases by shape
alone, with no hex-digit validation; otherwise a comma-separated integer
triple is rendered as `'#%02X%02X%02X'`; every other or missing value,
including comma forms that do not parse as at least three integers,
yields exactly `#000000`. -/
theorem C3_color_coercion (v : String) :
    (coerceColor none = "#000000")
    ∧ ((startsWithHash (pyStrip v) && ((pyStrip v).length == 7)) = true →
        coerceColor (some v) = pyUpper (pyStrip v))
    ∧ ((startsWithHash (pyStrip v) && ((pyStrip v).length == 4)) = true →
        coerceColor (some v) = expandShortHex (pyStrip v))
    ∧ (∀ r g b : Int,
        (startsWithHash (pyStrip v)
          && ((pyStrip v).length == 7 || (pyStrip v).length == 4)) = false →
        (pyStrip v).data.contains ',' = true →
        parseTriple (pyStrip v) = some (r, g, b) →
        coerceColor (some v) = "#" ++ pyHex02X r ++ pyHex02X g ++ pyHex02X b)
    ∧ ((startsWithHash (pyStrip v)
          && ((pyStrip v).length == 7 || (pyStrip v).length == 4)) = false →
        (pyStrip v).data.contains ',' = true →
        parseTriple (pyStrip v) = none →
        coerceColor (some v) = "#000000")
    ∧ ((startsWithHash (pyStrip v)
          && ((pyStrip v).length == 7 || (pyStrip v).length == 4)) = false →
        (pyStrip v).data.contains ',' = false →
        coerceColor (some v) = "#000000") := by
  refine ⟨rfl, ?_, ?_, ?_, ?_, ?_⟩
  · intro h
    obtain ⟨hs, hl⟩ := Bool.and_eq_true_iff.mp h
    have hl7 : (pyStrip v).length = 7 := by simpa using hl
    rw [coerceColor_some_eq, if_pos (by simp [hs, hl7]), if_neg (by simp [hl7])]
  · intro h
    obtain ⟨hs, hl⟩ := Bool.and_eq_true_iff.mp h
    have hl4 : (pyStrip v).length = 4 := by simpa using hl
    rw [coerceColor_some_eq, if_pos (by simp [hs, hl4]), if_pos (by simp [hl4])]
  · intro r g b hfalse hcomma htriple
    rw [coerceColor_some_eq, if_neg (by simp [hfalse]), if_pos hcomma, htriple]
  · intro hfalse hcomma htriple
    rw [coerceColor_some_eq, if_neg (by simp [hfalse]), if_pos hcomma, htriple]
  · intro hfalse hcomma
    rw [coerceColor_some_eq, if_neg (by simp [hfalse]),
      if_neg (by rw [hcomma]; exact Bool.false_ne_true)]

/-- Witness for C3: the four branches at concrete inputs — a padded
7-character string, the `#aBc` shorthand, the triple `255,0,16`, and a
plain word. -/
theorem C3_color_coercion_witness :
    coerceColor (some " #ff00aa ") = "#FF00AA"
    ∧ coerceColor (some "#aBc") = "#AABBCC"
    ∧ coerceColor (some "255,0,16") = "#FF0010"
    ∧ coerceColor (some "banana") = "#000000" := by
  have h1 := (C3_color_coercion " #ff00aa ").2.1 (by decide)
  have h2 := (C3_color_coercion "#aBc").2.2.1 (by decide)
  have h3 := (C3_color_coercion "255,0,16").2.2.2.1 255 0 16 (by decide) (by decide)
    (by decide)
  have h4 := (C3_color_coercion "banana").2.2.2.2.2 (by decide) (by decide)
  exact ⟨h1.trans (by decide), h2.trans (by decide), h3.trans (by decide), h4⟩

/-- Claim C1 (code evaluation): on a 4-wide, 2-tall serpentine strip the
hardware loop of `set_pixels` reverses both the row traversal and the
per-pixel physical index, and the two reversals cancel — the final
assignment is identical to the non-serpentine one.  Physical index 4
receives the color of logical pixel `(0, 1)` (`#C40000`), physical index
7 receives logical `(3, 1)` (`#C70000` — the claim expects logical
`(0, 1)` there), every physical index holds the same color with and
without serpentine, and only the emission order `[0,1,2,3,7,6,5,4]` is
reversed on the odd row. -/
theorem C1_serpentine_mapping_eval :
    physColor 4 2 true c1Buf 4 = some "#C40000"
    ∧ physColor 4 2 true c1Buf 7 = some "#C70000"
    ∧ ((List.range 8).all
        (fun i => physColor 4 2 true c1Buf i == physColor 4 2 false c1Buf i)) = true
    ∧ (hwEmission 4 2 true c1Buf).map Prod.fst = [0, 1, 2, 3, 7, 6, 5, 4] := by
  decide

/-- Claim C4: when `play_wled_json` is called on an idle engine and the
parse reports an error — the file is missing, no JSON objects decode, or
zero frames are extracted — the error is returned synchronously, no
playback task is spawned (`is_animating()` stays false) and the matrix
state, in particular the buffer, is unchanged. -/
theorem C4_play_failure_is_clean (es : Engine) (src : WledSource) (err : PlayError)
    (hidle : es.animating = false)
    (herr : play_wled_json (es.matrix.width * es.matrix.height) src
      = Except.error err) :
    (playStep es src).1.matrix = es.matrix
    ∧ (playStep es src).1.animating = false
    ∧ (playStep es src).2 = some err := by
  cases src with
  | missing =>
    simp only [play_wled_json, Except.error.injEq] at herr
    exact ⟨rfl, hidle, by rw [← herr]; exact rfl⟩
  | objs l =>
    have h2 : playStep es (WledSource.objs l)
        = ({ es with animating := false }, some err) := by
      simp only [playStep]
      rw [herr]
    rw [h2]
    exact ⟨rfl, rfl, rfl⟩

/-- Witness for C4: a 2x2 idle engine — a missing file and a
zero-frames source (one object with no usable segment data) both abort
cleanly with the matrix untouched. -/
theorem C4_play_failure_is_clean_witness :
    (playStep ⟨⟨2, 2, List.replicate 4 "#000000", false, "overlay", none, false⟩,
        false⟩ WledSource.missing).1.matrix
      = ⟨2, 2, List.replicate 4 "#000000", false, "overlay", none, false⟩
    ∧ (playStep ⟨⟨2, 2, List.replicate 4 "#000000", false, "overlay", none, false⟩,
        false⟩ WledSource.missing).2 = some PlayError.fileNotFound
    ∧ (playStep ⟨⟨2, 2, List.replicate 4 "#000000", false, "overlay", none, false⟩,
        false⟩ (WledSource.objs [JVal.jobj []])).1.matrix
      = ⟨2, 2, List.replicate 4 "#000000", false, "overlay", none, false⟩
    ∧ (playStep ⟨⟨2, 2, List.replicate 4 "#000000", false, "overlay", none, false⟩,
        false⟩ (WledSource.objs [JVal.jobj []])).1.animating = false
    ∧ (playStep ⟨⟨2, 2, List.replicate 4 "#000000", false, "overlay", none, false⟩,
        false⟩ (WledSource.objs [JVal.jobj []])).2 = some PlayError.noFrames := by
  have h1 := C4_play_failure_is_clean
    ⟨⟨2, 2, List.replicate 4 "#000000", false, "overlay", none, false⟩, false⟩
    WledSource.missing PlayError.fileNotFound rfl rfl
  have h2 := C4_play_failure_is_clean
    ⟨⟨2, 2, List.replicate 4 "#000000", false, "overlay", none, false⟩, false⟩
    (WledSource.objs [JVal.jobj []]) PlayError.noFrames rfl rfl
  exact ⟨h1.1, h1.2.2, h2.1, h2.2.1, h2.2.2⟩

/-- Claim C6: while an overlay is active in pause (ExclusivePause) mode,
every write with `bypass_overlay = false` returns without any effect —
the whole matrix state, in particular the stored buffer, is unchanged and
the overlay remains visible — while a write of pixels with
`bypass_overlay = true` always takes effect, storing the padded/truncated
coerced input, whatever the overlay state; this is the only privileged
write path. -/
theorem C6_pause_mode_write_semantics (st st2 : MatrixState)
    (px : Option PixInput) (p : PixInput)
    (hact : st.overlayActive = true) (hmode : st.overlayMode = "pause") :
    set_pixels st px false = st
    ∧ (set_pixels st2 (some p) true).buf
        = padTruncate (flattenInput p) (st2.width * st2.height) := by
  constructor
  · exact set_pixels_blocked st px false (by simp [hact, hmode])
  · rw [set_pixels_some_eq st2 p true (by simp), if_neg (by simp)]

/-- Witness for C6: on a 2x2 matrix with an active pause overlay, a
non-bypassing frame write is dropped whole, while a bypassing write of
one red pixel is stored padded to four entries. -/
theorem C6_pause_mode_write_semantics_witness :
    set_pixels
        ⟨2, 2, ["#AA0000", "#000000", "#000000", "#000000"], true, "pause",
          some (List.replicate 4 "#00FF00"), false⟩
        (some (PixInput.flat [some "#123456"])) false
      = ⟨2, 2, ["#AA0000", "#000000", "#000000", "#000000"], true, "pause",
          some (List.replicate 4 "#00FF00"), false⟩
    ∧ (set_pixels
        ⟨2, 2, ["#AA0000", "#000000", "#000000", "#000000"], true, "pause",
          some (List.replicate 4 "#00FF00"), false⟩
        (some (PixInput.flat [some "#123456"])) true).buf
      = ["#123456", "#000000", "#000000", "#000000"] := by
  have h := C6_pause_mode_write_semantics
    ⟨2, 2, ["#AA0000", "#000000", "#000000", "#000000"], true, "pause",
      some (List.replicate 4 "#00FF00"), false⟩
    ⟨2, 2, ["#AA0000", "#000000", "#000000", "#000000"], true, "pause",
      some (List.replicate 4 "#00FF00"), false⟩
    (some (PixInput.flat [some "#123456"])) (PixInput.flat [some "#123456"])
    rfl rfl
  exact ⟨h.1, h.2.trans (by decide)⟩

/-- Claim C8: after every write the stored buffer has exactly
`width*height` entries — blocked pause-mode writes and `None` writes keep
the previous invariant-satisfying buffer, and every stored write is the
coerced input right-padded with `#000000` when short and truncated when
long (exactly that list when no overlay is active), with the padded tail
black and the kept prefix unchanged pixel by pixel. -/
theorem C8_buffer_length_invariant (st : MatrixState) (px : Option PixInput)
    (bypass : Bool) (hlen : st.buf.length = st.width * st.height) :
    ((set_pixels st px bypass).buf.length = st.width * st.height)
    ∧ (∀ p, st.overlayActive = false →
        (set_pixels st (some p) bypass).buf
          = padTruncate (flattenInput p) (st.width * st.height))
    ∧ (∀ (l : List String) (i : Nat), l.length ≤ i → i < st.width * st.height →
        (padTruncate l (st.width * st.height)).getD i "" = "#000000")
    ∧ (∀ (l : List String) (i : Nat), i < l.length → i < st.width * st.height →
        (padTruncate l (st.width * st.height)).getD i "" = l.getD i "") := by
  refine ⟨?_, ?_, ?_, ?_⟩
  · by_cases hb : (st.overlayActive && !bypass && (st.overlayMode == "pause")) = true
    · rw [set_pixels_blocked st px bypass hb]
      exact hlen
    · cases px with
      | none =>
        rw [set_pixels_none]
        exact hlen
      | some p =>
        rw [set_pixels_some_eq st p bypass (by simpa using hb)]
        dsimp only
        split
        · cases hop : st.overlayPixels with
          | none => exact padTruncate_length _ _
          | some op =>
            dsimp only
            by_cases h2 : op.length = st.width * st.height
            · rw [if_pos h2, mergeOverlay_length]
              exact padTruncate_length _ _
            · rw [if_neg h2]
              exact padTruncate_length _ _
        · exact padTruncate_length _ _
  · intro p hov
    rw [set_pixels_some_eq st p bypass (by simp [hov]), if_neg (by simp [hov])]
  · intro l i h1 h2
    exact padTruncate_getD_pad l _ i "" h1 h2
  · intro l i h1 h2
    exact padTruncate_getD_lt l _ i "" h1 h2

/-- Witness for C8: a 2x2 idle matrix — a 1-entry write is padded to 4
entries, a 6-entry write is truncated to 4, and the padded tail is black
while the kept prefix is the caller's pixel. -/
theorem C8_buffer_length_invariant_witness :
    ((set_pixels ⟨2, 2, List.replicate 4 "#000000", false, "overlay", none, false⟩
        (some (PixInput.flat [some "#ff0000"])) false).buf.length = 4)
    ∧ ((set_pixels ⟨2, 2, List.replicate 4 "#000000", false, "overlay", none, false⟩
        (some (PixInput.flat [some "#ff0000"])) false).buf
      = ["#FF0000", "#000000", "#000000", "#000000"])
    ∧ ((set_pixels ⟨2, 2, List.replicate 4 "#000000", false, "overlay", none, false⟩
        (some (PixInput.flat (List.replicate 6 (some "#ff0000")))) false).buf
      = List.replicate 4 "#FF0000") := by
  have h := C8_buffer_length_invariant
    ⟨2, 2, List.replicate 4 "#000000", false, "overlay", none, false⟩
    (some (PixInput.flat [some "#ff0000"])) false (by decide)
  have h6 := C8_buffer_length_invariant
    ⟨2, 2, List.replicate 4 "#000000", false, "overlay", none, false⟩
    (some (PixInput.flat (List.replicate 6 (some "#ff0000")))) false (by decide)
  exact ⟨h.1, (h.2.1 _ rfl).trans (by decide), (h6.2.1 _ rfl).trans (by decide)⟩

/-- Claim C7: an overlay cycle that reaches its deadline uncancelled, in
either mode (the stored overlay mode is arbitrary here, covering both
Overlay and ExclusivePause), restores the snapshot taken at its start
verbatim via a `bypass_overlay = true` write — provided no concurrent
animation is running, which is the source's own `is_animating()` guard
and the claim's stated assumption.  Afterwards the buffer equals the
pre-overlay snapshot and the overlay is inactive. -/
theorem C7_overlay_expiry_restores (st : MatrixState) (snap : List String)
    (hcanon : ∀ c ∈ snap, canonicalColor c)
    (hlen : snap.length = st.width * st.height) :
    (overlayExpiry st false false snap).buf = snap
    ∧ (overlayExpiry st false false snap).overlayActive = false := by
  have hmap : ∀ (l : List String), (∀ c ∈ l, canonicalColor c) →
      (l.map some).map coerceColor = l := by
    intro l hl
    induction l with
    | nil => rfl
    | cons a as ih =>
      simp only [List.map_cons]
      rw [coerce_canonical a (hl a (by simp)), ih (fun c hc => hl c (by simp [hc]))]
  have hset : set_pixels st (some (PixInput.flat (snap.map some))) true
      = { st with buf := snap } := by
    rw [set_pixels_some_eq st _ true (by simp), if_neg (by simp)]
    have hpad : padTruncate (flattenInput (PixInput.flat (snap.map some)))
        (st.width * st.height) = snap := by
      show padTruncate ((snap.map some).map coerceColor) _ = snap
      rw [hmap snap hcanon, padTruncate_eq_self _ _ hlen]
    rw [hpad]
  unfold overlayExpiry
  rw [if_pos ⟨rfl, rfl⟩, hset]
  exact ⟨rfl, rfl⟩

/-- Witness for C7: a 2x2 matrix with an active pause-mode overlay and a
canonical 4-color snapshot; on uncancelled expiry with no animation
running, the buffer is the snapshot again and the overlay is cleared. -/
theorem C7_overlay_expiry_restores_witness :
    (overlayExpiry
        ⟨2, 2, List.replicate 4 "#00FF00", true, "pause",
          some (List.replicate 4 "#00FF00"), false⟩ false false
        ["#FF0000", "#00FF00", "#0000FF", "#FFFFFF"]).buf
      = ["#FF0000", "#00FF00", "#0000FF", "#FFFFFF"]
    ∧ (overlayExpiry
        ⟨2, 2, List.replicate 4 "#00FF00", true, "pause",
          some (List.replicate 4 "#00FF00"), false⟩ false false
        ["#FF0000", "#00FF00", "#0000FF", "#FFFFFF"]).overlayActive = false := by
  have h := C7_overlay_expiry_restores
    ⟨2, 2, List.replicate 4 "#00FF00", true, "pause",
      some (List.replicate 4 "#00FF00"), false⟩
    ["#FF0000", "#00FF00", "#0000FF", "#FFFFFF"] (by decide) (by decide)
  exact ⟨h.1, h.2⟩

theorem buildVolumeOverlay_green_eq (snap : List String) (w h vol : Nat) :
    buildVolumeOverlay snap w h vol "#00FF00"
      = foldSet snap ((h - 1) * w) w
          (fun x => if x < pyRoundHalfEven (vol * w) 100 then "#00FF00"
                    else "#001E00") := rfl

theorem set_pixels_overlay_merge (st : MatrixState) (p : PixInput)
    (op : List String)
    (hact : st.overlayActive = true) (hmode : st.overlayMode = "overlay")
    (hop : st.overlayPixels = some op)
    (hlen : op.length = st.width * st.height) :
    (set_pixels st (some p) false).buf
      = mergeOverlay (padTruncate (flattenInput p) (st.width * st.height)) op := by
  rw [set_pixels_some_eq st p false (by rw [hact, hmode]; decide)]
  dsimp only
  rw [hact, hmode, if_pos (by decide : (true && !false && ("overlay" == "overlay" : Bool)) = true),
    hop]
  dsimp only
  rw [if_pos hlen]

/-- Counterexample to C5 as stated: the stored overlay pixels are the
whole pre-overlay snapshot with only the bottom row replaced, so a
non-black snapshot pixel in a non-bottom row also wins the merge — after
`show_volume_bar` snapshots `c5Snap`, a subsequent animation frame write
of `c5New` leaves `#AA0000` (the old snapshot value) at pixel 0 of the
top row instead of the caller's coerced `#111111`. -/
theorem C5_overlay_merge_counterexample :
    (set_pixels c5St (some (PixInput.flat (c5New.map some))) false).buf.getD 0 ""
      = "#AA0000"
    ∧ (c5New.map (fun s => coerceColor (some s))).getD 0 "" = "#111111"
    ∧ ("#AA0000" : String) ≠ "#111111" := by
  decide

/-- Claim C5 (amended): while an overlay is active in Overlay mode with
stored overlay pixels built by `show_volume_bar` from snapshot `snap`
(default green), a non-bypassing write stores, per pixel, the overlay
value wherever it is non-black and the caller's padded coerced value
wherever the overlay is black; consequently the bottom row keeps the
volume-bar colors (`#00FF00` filled, dimmed `#001E00` remainder), and a
non-bottom-row pixel shows the caller's new value exactly where the
snapshot was black — in particular all non-bottom rows do so whenever
the pre-overlay snapshot was black outside the bottom row. -/
theorem C5_overlay_merge (w h vol : Nat) (snap newBuf buf0 : List String)
    (serp : Bool) (hs : snap.length = w * h) (hh : 1 ≤ h)
    (hne : ∀ c ∈ snap, c ≠ "") :
    ∀ (st : MatrixState) (op res flatNew : List String),
    op = buildVolumeOverlay snap w h vol "#00FF00" →
    st = ⟨w, h, buf0, true, "overlay", some op, serp⟩ →
    res = (set_pixels st (some (PixInput.flat (newBuf.map some))) false).buf →
    flatNew = padTruncate (flattenInput (PixInput.flat (newBuf.map some))) (w * h) →
    (∀ i, i < w * h → op.getD i "" ≠ "#000000" → res.getD i "" = op.getD i "")
    ∧ (∀ i, i < w * h → op.getD i "" = "#000000" →
        res.getD i "" = flatNew.getD i "")
    ∧ (∀ x, x < w → res.getD ((h - 1) * w + x) ""
        = (if x < pyRoundHalfEven (vol * w) 100 then "#00FF00" else "#001E00"))
    ∧ ((∀ i, i < (h - 1) * w → snap.getD i "" = "#000000") →
        ∀ i, i < (h - 1) * w → res.getD i "" = flatNew.getD i "") := by
  intro st op res flatNew hop hst hres hflat
  subst hop; subst hst; subst hres; subst hflat
  have hrs : (h - 1) * w + w = w * h := by
    obtain ⟨n, rfl⟩ : ∃ n, h = n + 1 := ⟨h - 1, by omega⟩
    simp [Nat.add_sub_cancel]
    ring
  have hoplen : (buildVolumeOverlay snap w h vol "#00FF00").length = w * h := by
    rw [buildVolumeOverlay_green_eq, foldSet_length]
    exact hs
  have hbot : ∀ x, x < w →
      (buildVolumeOverlay snap w h vol "#00FF00").getD ((h - 1) * w + x) ""
        = (if x < pyRoundHalfEven (vol * w) 100 then "#00FF00" else "#001E00") := by
    intro x hx
    rw [buildVolumeOverlay_green_eq]
    exact foldSet_getD_inside snap ((h - 1) * w) w _ x "" hx (by omega)
  have htop : ∀ i, i < (h - 1) * w →
      (buildVolumeOverlay snap w h vol "#00FF00").getD i "" = snap.getD i "" := by
    intro i hi
    rw [buildVolumeOverlay_green_eq]
    exact foldSet_getD_outside snap ((h - 1) * w) w _ i "" (Or.inl hi)
  have hopne : ∀ i, i < w * h →
      (buildVolumeOverlay snap w h vol "#00FF00").getD i "" ≠ "" := by
    intro i hi
    by_cases hib : i < (h - 1) * w
    · rw [htop i hib]
      have hi' : i < snap.length := by omega
      rw [List.getD_eq_getElem snap "" hi']
      exact hne _ (List.getElem_mem hi')
    · have hx : i - (h - 1) * w < w := by omega
      have hieq : i = (h - 1) * w + (i - (h - 1) * w) := by omega
      rw [hieq, hbot _ hx]
      split
      · decide
      · decide
  have hresq : (set_pixels
        ⟨w, h, buf0, true, "overlay",
          some (buildVolumeOverlay snap w h vol "#00FF00"), serp⟩
        (some (PixInput.flat (newBuf.map some))) false).buf
      = mergeOverlay
          (padTruncate (flattenInput (PixInput.flat (newBuf.map some))) (w * h))
          (buildVolumeOverlay snap w h vol "#00FF00") :=
    set_pixels_overlay_merge _ _ _ rfl rfl rfl hoplen
  have hflen : (padTruncate (flattenInput (PixInput.flat (newBuf.map some)))
      (w * h)).length = w * h := padTruncate_length _ _
  have hc2 : ∀ i, i < w * h →
      (buildVolumeOverlay snap w h vol "#00FF00").getD i "" = "#000000" →
      ((set_pixels
          ⟨w, h, buf0, true, "overlay",
            some (buildVolumeOverlay snap w h vol "#00FF00"), serp⟩
          (some (PixInput.flat (newBuf.map some))) false).buf).getD i ""
        = (padTruncate (flattenInput (PixInput.flat (newBuf.map some)))
            (w * h)).getD i "" := by
    intro i hi hblack
    rw [hresq, mergeOverlay_getD _ _ i "" (by omega) (by omega),
      if_neg (by rw [hblack]; decide)]
  refine ⟨?_, hc2, ?_, ?_⟩
  · intro i hi hnb
    have hw : overlayWins
        ((buildVolumeOverlay snap w h vol "#00FF00").getD i "") = true :=
      Bool.and_eq_true_iff.mpr ⟨bne_iff_ne.mpr (hopne i hi), bne_iff_ne.mpr hnb⟩
    rw [hresq, mergeOverlay_getD _ _ i "" (by omega) (by omega), if_pos hw]
  · intro x hx
    have hi : (h - 1) * w + x < w * h := by omega
    rw [hresq, mergeOverlay_getD _ _ _ "" (by omega) (by omega), hbot x hx]
    by_cases hf : x < pyRoundHalfEven (vol * w) 100
    · rw [if_pos hf, if_pos (by decide : overlayWins "#00FF00" = true)]
    · rw [if_neg hf, if_pos (by decide : overlayWins "#001E00" = true)]
  · intro hsb i hi
    have hblack : (buildVolumeOverlay snap w h vol "#00FF00").getD i ""
        = "#000000" := by
      rw [htop i hi]
      exact hsb i hi
    exact hc2 i (by omega) hblack

/-- Witness for C5: a 2x2 matrix whose pre-overlay snapshot is all
black, full volume, green bar; a subsequent frame write keeps the bar at
bottom-row pixel `(0, 1)` (flat index 2) and shows the caller's
`#111111` at top-row pixel 0. -/
theorem C5_overlay_merge_witness :
    ((set_pixels
        ⟨2, 2, List.replicate 4 "#000000", true, "overlay",
          some (buildVolumeOverlay (List.replicate 4 "#000000") 2 2 100 "#00FF00"),
          false⟩
        (some (PixInput.flat
          (["#111111", "#222222", "#333333", "#444444"].map some))) false).buf).getD
        2 ""
      = "#00FF00"
    ∧ ((set_pixels
        ⟨2, 2, List.replicate 4 "#000000", true, "overlay",
          some (buildVolumeOverlay (List.replicate 4 "#000000") 2 2 100 "#00FF00"),
          false⟩
        (some (PixInput.flat
          (["#111111", "#222222", "#333333", "#444444"].map some))) false).buf).getD
        0 ""
      = "#111111" := by
  have h := C5_overlay_merge 2 2 100 (List.replicate 4 "#000000")
    ["#111111", "#222222", "#333333", "#444444"] (List.replicate 4 "#000000")
    false (by decide) (by decide) (by decide) _ _ _ _ rfl rfl rfl rfl
  constructor
  · exact (h.2.2.1 0 (by decide)).trans (by decide)
  · exact (h.2.2.2 (by decide) 0 (by decide)).trans (by decide)

/-- Counterexample to C9 as stated: the source derives the brightness
percent with floor division `b * 100 // 255`, not rounding — at a `bri`
value of 4 the code yields 1 while the claimed `round(4*100/255)`,
clamped, is 2. -/
theorem C9_brightness_counterexample :
    briPercentOfCode 4 = 1
    ∧ briPercentRounded 4 = 2
    ∧ briPercentOfCode 4 ≠ briPercentRounded 4 := by
  decide

/-- Claim C9 (amended): for every integer `bri` source value v in 0..255
the derived brightness percent equals `floor(v*100/255)` clamped to
0..100 (the clamp is vacuous on that range, and the result lies in
0..100); v = 4 yields 1 (claimed: 2 by rounding) and v = 255 yields 100;
this is exactly the value the player records for a frame whose `bri` key
holds v. -/
theorem C9_brightness_floor (v : Int) (h0 : 0 ≤ v) (h255 : v ≤ 255) :
    briPercentOfCode v = (v * 100) / 255
    ∧ 0 ≤ briPercentOfCode v
    ∧ briPercentOfCode v ≤ 100
    ∧ briOfObj (JVal.jobj [("bri", JVal.jint v)]) = some (briPercentOfCode v) := by
  have hobj : briOfObj (JVal.jobj [("bri", JVal.jint v)])
      = some (briPercentOfCode v) := rfl
  have hfd : Int.fdiv (v * 100) 255 = v * 100 / 255 :=
    Int.fdiv_eq_ediv (v * 100) (by norm_num)
  have h1 : briPercentOfCode v = v * 100 / 255 := by
    unfold briPercentOfCode
    rw [hfd]
    omega
  exact ⟨h1, by rw [h1]; omega, by rw [h1]; omega, hobj⟩

/-- Witness for C9: at the claim's own example values — `bri = 4` maps
to 1 percent and `bri = 255` to 100 percent. -/
theorem C9_brightness_floor_witness :
    briPercentOfCode 4 = (4 * 100) / 255
    ∧ briPercentOfCode 4 = 1
    ∧ briPercentOfCode 255 = 100
    ∧ briOfObj (JVal.jobj [("bri", JVal.jint 255)])
        = some (briPercentOfCode 255) := by
  have h4 := C9_brightness_floor 4 (by decide) (by decide)
  have h255 := C9_brightness_floor 255 (by decide) (by decide)
  exact ⟨h4.1, by decide, by decide, h255.2.2.2⟩
